import Mathlib

set_option maxRecDepth 10000

/-!
Verification of the lux-parking poller (src/poller/lux-parking-poller.py)
against its natural-language specification.

The embedding models wall-clock instants as microseconds since an epoch
(a Nat), feed entries as records of optional string fields (a missing
field key corresponds to a Python KeyError on access), and the per-entry
try/except of the main poll loop as a total function producing either a
lot/reading pair, a filtered record, or a per-entry failure.
-/

namespace LuxParking

/-! ## Time model

A wall-clock instant is a number of microseconds since an epoch.
datetime.replace and timedelta arithmetic become plain Nat arithmetic.
-/

/-- Microseconds in one minute. -/
def MICROS_PER_MIN : Nat := 60000000

/-- Microseconds in one second. -/
def MICROS_PER_SEC : Nat := 1000000

/-- The second-of-minute component of an instant (datetime .second). -/
def secondOf (t : Nat) : Nat := t / MICROS_PER_SEC % 60

/-- The microsecond component of an instant (datetime .microsecond). -/
def microsecondOf (t : Nat) : Nat := t % MICROS_PER_SEC

/-- datetime.replace(second=0, microsecond=0): truncate to the minute. -/
def truncToMinute (t : Nat) : Nat := t / MICROS_PER_MIN * MICROS_PER_MIN

/-- HttpRequester.poll line 80: start_time = now.replace(second=0, microsecond=0)
+ timedelta(minutes=1). -/
def nextTick (t : Nat) : Nat := truncToMinute t + MICROS_PER_MIN

/-- Poll-loop line 191: datetime.datetime.now().replace(second=00).
Only the second component is replaced; the microsecond component is kept. -/
def entryTimestamp (t : Nat) : Nat := t - secondOf t * MICROS_PER_SEC

/-- Follows the spec's words for the reading timestamp: the wall-clock
minute of the poll, seconds truncated to zero. -/
def readingTimestampSpec (t : Nat) : Nat := truncToMinute t

/-- The busy wait of HttpRequester.poll lines 82-84:
while now < start_time: time.sleep(0.1); now = datetime.datetime.now().
The clock gives the instant observed at the i-th reading of now; fuel
bounds the number of loop iterations modelled. -/
def waitLoop (clock : Nat → Nat) (target : Nat) : Nat → Nat → Option Nat
  | 0, _ => none
  | fuel + 1, i => if clock i < target then waitLoop clock target fuel (i + 1) else some (clock i)

/-! ## Python-style string parsing

int(s) strips surrounding whitespace, accepts an optional sign and then
decimal digits.  float(s) likewise, with an optional fractional part.
(Python also accepts underscores between digits and exponent/inf/nan
forms for float; the feed never uses them and they are not modelled.)
-/

/-- Value of a nonempty all-digit string, none otherwise. -/
def digitsVal (cs : List Char) : Option Nat :=
  if cs = [] then none
  else if cs.all Char.isDigit then
    some (cs.foldl (fun a c => a * 10 + (c.toNat - '0'.toNat)) 0)
  else none

/-- Python int(s): ValueError becomes none. -/
def pyInt (s : String) : Option Int :=
  match s.trim.toList with
  | '-' :: rest => (digitsVal rest).map (fun n => -(n : Int))
  | '+' :: rest => (digitsVal rest).map (fun n => (n : Int))
  | l => (digitsVal l).map (fun n => (n : Int))

/-- Fractional digits after the decimal point, as a rational in [0, 1). -/
def fracVal (cs : List Char) : Option Rat :=
  if cs = [] then some 0
  else (digitsVal cs).map (fun n => (n : Rat) / (10 ^ cs.length : Rat))

/-- Unsigned decimal literal: digits, optionally a point and more digits;
at least one digit overall. -/
def decimalVal (cs : List Char) : Option Rat :=
  match cs.splitOn '.' with
  | [whole] => (digitsVal whole).map (fun n => (n : Rat))
  | [whole, frac] =>
      if whole = [] then
        if frac = [] then none else fracVal frac
      else do
        let w ← digitsVal whole
        let f ← fracVal frac
        pure ((w : Rat) + f)
  | _ => none

/-- Python float(s) on plain decimal literals: ValueError becomes none. -/
def pyFloat (s : String) : Option Rat :=
  match s.trim.toList with
  | '-' :: rest => (decimalVal rest).map (fun q => -q)
  | '+' :: rest => decimalVal rest
  | l => decimalVal l

/-! ## Data model (the two SQLAlchemy tables) -/

/-- Table lots: current state of one parking lot, upserted every cycle. -/
structure ParkingLot where
  id : Int
  name : String
  lat : Rat
  lon : Rat
  price : String
  info : String
deriving Repr, DecidableEq

/-- Table entries: one appended history row per reading. -/
structure ParkingEntryRow where
  park_id : Int
  free : Option Int
  total : Option Int
  full : Option Bool
  timestamp : Nat
deriving Repr, DecidableEq

/-- One decoded feed entry: each field is some string when the key is
present in the feedparser mapping, none when accessing it would raise
KeyError. -/
structure RawEntry where
  title : Option String
  id : Option String
  vdlxml_actuel : Option String
  vdlxml_total : Option String
  vdlxml_complet : Option String
  vdlxml_divers : Option String
  vdlxml_paiement : Option String
  vdlxml_localisationlatitude : Option String
  vdlxml_localisationlongitude : Option String
deriving Repr, DecidableEq

/-! ## Entry normalization (poll-loop lines 160-196)

Each numbered helper mirrors one expression of the per-entry try block;
an error value corresponds to the exception (KeyError / ValueError) the
expression would raise.
-/

/-- None if entry[k] == '' else int(entry[k]): KeyError when the field is
absent, ValueError when nonempty and non-numeric. -/
def numField : Option String → Except Unit (Option Int)
  | none => .error ()
  | some s => if s = "" then .ok none else
      match pyInt s with
      | some n => .ok (some n)
      | none => .error ()

/-- None if entry[k] == '' else bool(int(entry[k])). -/
def fullField (f : Option String) : Except Unit (Option Bool) :=
  (numField f).map (fun o => o.map (fun n => decide (n ≠ 0)))

/-- float(s) if s else None: empty string is falsy, a nonempty
non-numeric string raises ValueError. -/
def coordVal (s : String) : Except Unit (Option Rat) :=
  if s = "" then .ok none else
    match pyFloat s with
    | some q => .ok (some q)
    | none => .error ()

/-- Result of the per-entry try block: a lot and reading (merge + add),
a filtered record (the lat/long continue), or an exception.  A failure
records the title value when the failing expression came after
park_name = entry['title'] was executed. -/
inductive Outcome where
  | ok (lot : ParkingLot) (row : ParkingEntryRow)
  | noCoords (name : String)
  | fail (nameRead : Option String)
deriving Repr, DecidableEq

/-- The per-entry try block of the poll loop, in source order:
park_free, park_total, park_full, park_name, the Beggen special case /
int(entry['id']), park_info, park_price, park_lat, park_long, the
lat/long presence check, then the ParkingLot / ParkingEntry values. -/
def entryOutcome (e : RawEntry) (now : Nat) : Outcome :=
  match numField e.vdlxml_actuel with
  | .error _ => .fail none
  | .ok park_free =>
  match numField e.vdlxml_total with
  | .error _ => .fail none
  | .ok park_total =>
  match fullField e.vdlxml_complet with
  | .error _ => .fail none
  | .ok park_full =>
  match e.title with
  | none => .fail none
  | some park_name =>
  match ((if park_name = "Beggen" then .ok (999999 : Int) else
          match e.id with
          | none => .error ()
          | some s =>
            match pyInt s with
            | some n => Except.ok n
            | none => Except.error ()) : Except Unit Int) with
  | .error _ => .fail (some park_name)
  | .ok park_id =>
  match e.vdlxml_divers with
  | none => .fail (some park_name)
  | some park_info =>
  match e.vdlxml_paiement with
  | none => .fail (some park_name)
  | some park_price =>
  match e.vdlxml_localisationlatitude with
  | none => .fail (some park_name)
  | some latStr =>
  match coordVal latStr with
  | .error _ => .fail (some park_name)
  | .ok park_lat =>
  match e.vdlxml_localisationlongitude with
  | none => .fail (some park_name)
  | some lonStr =>
  match coordVal lonStr with
  | .error _ => .fail (some park_name)
  | .ok park_long =>
  match park_lat, park_long with
  | some la, some lo =>
      .ok { id := park_id, name := park_name, lat := la, lon := lo,
            price := park_price, info := park_info }
         { park_id := park_id, free := park_free, total := park_total,
           full := park_full, timestamp := entryTimestamp now }
  | _, _ => .noCoords park_name

/-! ## The poll-loop cycle (lines 154-212)

One cycle decodes a batch of entries, runs the per-entry try/except over
each, and then issues a single session.commit().  Log lines are modelled
as a small inductive; only the lines the spec talks about are kept.
-/

/-- The log lines the loop can emit for one cycle. -/
inductive LogLine where
  | lotInfo (name : String) (id : Int)
  | warnNoCoords (name : String)
  | errNamed (name : String)
  | errUnknown
  | dbError
deriving Repr, DecidableEq

/-- State threaded through the for loop over feed.entries: the pending
session writes, the log so far, and the last value bound to the Python
variable park_name (module-level, so it survives across entries; the
except handler reads it to name the faulty lot). -/
structure CycleState where
  boundName : Option String
  lots : List ParkingLot
  rows : List ParkingEntryRow
  logs : List LogLine
deriving Repr, DecidableEq

/-- The error log line of the except handler, lines 200-204: it names
park_name when that variable is bound, and falls back to the generic
unknown-parking message when reading it raises NameError. -/
def errLogFor : Option String → LogLine
  | some n => .errNamed n
  | none => .errUnknown

/-- One iteration of the for loop: the try block runs entryOutcome; on
success the lot is merged and the row added to the session and an info
line logged; a missing-coordinates entry only logs the warning and
continues; an exception is caught, logged, and the loop moves on. -/
def processEntry (now : Nat) (st : CycleState) (e : RawEntry) : CycleState :=
  match entryOutcome e now with
  | .ok lot row =>
      { st with boundName := some lot.name,
                lots := st.lots ++ [lot],
                rows := st.rows ++ [row],
                logs := st.logs ++ [.lotInfo lot.name lot.id] }
  | .noCoords n =>
      { st with boundName := some n,
                logs := st.logs ++ [.warnNoCoords n] }
  | .fail nameRead =>
      let nb := nameRead <|> st.boundName
      { st with boundName := nb, logs := st.logs ++ [errLogFor nb] }

/-- The whole for loop over one decoded batch, starting from a fresh
session (no pending writes) but whatever park_name binding is left over
from earlier cycles. -/
def processEntries (es : List RawEntry) (name0 : Option String) (now : Nat) : CycleState :=
  es.foldl (processEntry now) { boundName := name0, lots := [], rows := [], logs := [] }

/-- The database: the two tables. -/
structure DB where
  lots : List ParkingLot
  rows : List ParkingEntryRow
deriving Repr, DecidableEq

/-- session.merge(db_lot): upsert by primary key id. -/
def applyLot (tbl : List ParkingLot) (l : ParkingLot) : List ParkingLot :=
  if tbl.any (fun x => x.id = l.id) then
    tbl.map (fun x => if x.id = l.id then l else x)
  else tbl ++ [l]

/-- session.commit() on a session holding the cycle's pending writes:
the transaction either applies every pending write or, on a database
error, none of them (the flush happens inside this one commit because
the sessionmaker is created with autoflush=False). -/
def commitSession (db : DB) (st : CycleState) (dbOk : Bool) : DB :=
  if dbOk then
    { lots := st.lots.foldl applyLot db.lots, rows := db.rows ++ st.rows }
  else db

/-- One full cycle body after a successful fetch and decode: process all
entries, then commit; a failing commit is caught by the outer except
(line 211) which logs and lets the while loop continue. -/
def runCycle (db : DB) (name0 : Option String) (es : List RawEntry) (now : Nat)
    (dbOk : Bool) : DB × CycleState :=
  let st := processEntries es name0 now
  if dbOk then (commitSession db st true, st)
  else (db, { st with logs := st.logs ++ [.dbError] })

/-! ## The HTTP fetch (HttpRequester.get, lines 57-73)

A response is the outcome of one HTTP exchange; elapsedMs is how long
the whole wrapped call took, which the thread-based timeout decorator
compares against its limit.
-/

/-- One HTTP exchange as seen by HttpRequester.get. -/
structure HttpResponse where
  status : Nat
  body : String
  elapsedMs : Nat
deriving Repr, DecidableEq

/-- The errors the fetch can raise: the decorator timeout,
requests.exceptions.HTTPError from raise_for_status (4xx / 5xx), and the
homemade UnexpectedHttpStatusCode for any other non-200 code.  The two
status errors both carry the response status code and body. -/
inductive FetchError where
  | timeout
  | httpError (code : Nat) (body : String)
  | unexpectedStatus (code : Nat) (body : String)
deriving Repr, DecidableEq

/-- The body of HttpRequester.get: raise_for_status raises HTTPError for
client (4xx) and server (5xx) codes, then any other status that is not
exactly 200 raises UnexpectedHttpStatusCode, else the body is returned. -/
def getBody (r : HttpResponse) : Except FetchError String :=
  if 400 ≤ r.status ∧ r.status ≤ 599 then .error (.httpError r.status r.body)
  else if r.status ≠ 200 then .error (.unexpectedStatus r.status r.body)
  else .ok r.body

/-- Modelled from the spec: the timeout module (imported at line 30 but
not part of src/) provides a decorator enforcing a hard wall-clock limit
on the whole wrapped call; if the call takes longer than the limit the
caller gets a timeout error instead of the call's result, with no retry.
The limit argument is in seconds, as in the source's timeout(5). -/
def timeoutGate (limitSec : Nat) (elapsedMs : Nat)
    (result : Except FetchError String) : Except FetchError String :=
  if limitSec * 1000 < elapsedMs then .error .timeout else result

/-- HttpRequester.get with its timeout(5) decorator applied. -/
def get (r : HttpResponse) : Except FetchError String :=
  timeoutGate 5 r.elapsedMs (getBody r)

/-! ## Theorems -/

/-- waitLoop only ever returns an instant at or after its target. -/
lemma waitLoop_ge (clock : Nat → Nat) (target : Nat) :
    ∀ fuel i t, waitLoop clock target fuel i = some t → target ≤ t := by
  intro fuel
  induction fuel with
  | zero => intro i t h; simp [waitLoop] at h
  | succ n ih =>
      intro i t h
      rw [waitLoop] at h
      by_cases hc : clock i < target
      · rw [if_pos hc] at h
        exact ih (i + 1) t h
      · rw [if_neg hc] at h
        cases h
        omega

/-- C2: the wait of HttpRequester.poll targets the least minute boundary
(second 0, microsecond 0) strictly after now; at 12:00:00.050 the target
is 12:01:00.000; a wait recomputed from any instant at or past the
previous target yields a strictly later target (no double fire); the
wait duration nextTick now - now is positive (never negative); and the
busy-wait loop only hands control back at an instant at or after the
target. -/
theorem c2_scheduler :
    (∀ t, t < nextTick t ∧ secondOf (nextTick t) = 0 ∧
        microsecondOf (nextTick t) = 0) ∧
    (∀ t b, secondOf b = 0 → microsecondOf b = 0 → t < b → nextTick t ≤ b) ∧
    nextTick (43200000000 + 50000) = 43260000000 ∧
    (∀ t u, nextTick t ≤ u → nextTick t < nextTick u) ∧
    (∀ clock fuel i t, waitLoop clock (nextTick (clock 0)) fuel i = some t →
        nextTick (clock 0) ≤ t) := by
  refine ⟨?_, ?_, ?_, ?_, ?_⟩
  · intro t
    simp only [nextTick, truncToMinute, secondOf, microsecondOf,
      MICROS_PER_MIN, MICROS_PER_SEC]
    omega
  · intro t b h1 h2 h3
    simp only [nextTick, truncToMinute, secondOf, microsecondOf,
      MICROS_PER_MIN, MICROS_PER_SEC] at *
    omega
  · rfl
  · intro t u h
    simp only [nextTick, truncToMinute, MICROS_PER_MIN] at *
    omega
  · intro clock fuel i t h
    exact waitLoop_ge clock (nextTick (clock 0)) fuel i t h

/-- Witness for c2_scheduler at concrete instants: a wait from
00:00:00.050 may stop at the boundary 00:01:00.000 and not earlier, and
a busy wait whose clock crosses the target stops at or after it. -/
theorem c2_scheduler_witness :
    nextTick 50000 ≤ 60000000 ∧ nextTick 43200000000 < nextTick 43260000000 :=
  ⟨c2_scheduler.2.1 50000 60000000
      (by norm_num [secondOf, MICROS_PER_SEC]) (by norm_num [microsecondOf, MICROS_PER_SEC])
      (by norm_num),
   c2_scheduler.2.2.2.1 43200000000 43260000000
      (by norm_num [nextTick, truncToMinute, MICROS_PER_MIN])⟩

/-- C4: the fetch is covered by the fixed 5-second hard timeout: an
exchange longer than 5000 ms yields the timeout error and never a body,
and an exchange within the limit is classified purely from that single
exchange (no retry inside the call). -/
theorem c4_bounded_fetch (r : HttpResponse) :
    (5000 < r.elapsedMs → get r = .error .timeout) ∧
    (r.elapsedMs ≤ 5000 → get r = getBody r) := by
  constructor
  · intro h
    simp only [get, timeoutGate]
    rw [if_pos (by omega)]
  · intro h
    simp only [get, timeoutGate]
    rw [if_neg (by omega)]

/-- Witness for c4_bounded_fetch: a 5.1-second exchange times out even
with status 200, and a fast one returns its classification. -/
theorem c4_bounded_fetch_witness :
    get { status := 200, body := "ok", elapsedMs := 5100 } = .error .timeout ∧
    get { status := 200, body := "ok", elapsedMs := 100 }
      = getBody { status := 200, body := "ok", elapsedMs := 100 } :=
  ⟨(c4_bounded_fetch { status := 200, body := "ok", elapsedMs := 5100 }).1 (by norm_num),
   (c4_bounded_fetch { status := 200, body := "ok", elapsedMs := 100 }).2 (by norm_num)⟩

/-- C5: within the timeout, the fetch returns a body exactly when the
status is 200 (and then it is the response body); every other status,
4xx/5xx or non-200 success-class alike, produces a status error carrying
the code and the body. -/
theorem c5_strict_200 (r : HttpResponse) (hfast : r.elapsedMs ≤ 5000) :
    (get r = .ok r.body ↔ r.status = 200) ∧
    (∀ b, get r = .ok b → b = r.body ∧ r.status = 200) ∧
    (r.status ≠ 200 →
      get r = .error (.httpError r.status r.body) ∨
      get r = .error (.unexpectedStatus r.status r.body)) := by
  have hg : get r = getBody r := by
    simp only [get, timeoutGate]
    rw [if_neg (by omega)]
  rw [hg]
  unfold getBody
  by_cases h4 : 400 ≤ r.status ∧ r.status ≤ 599
  · rw [if_pos h4]
    refine ⟨by simp; omega, by simp, fun _ => Or.inl rfl⟩
  · rw [if_neg h4]
    by_cases h2 : r.status = 200
    · rw [if_neg (not_not_intro h2)]
      exact ⟨by simp [h2], by simp [h2], fun hne => absurd h2 hne⟩
    · rw [if_pos h2]
      exact ⟨by simp [h2], by simp, fun _ => Or.inr rfl⟩

/-- Witness for c5_strict_200: a 200 returns the body, a 503 and a 201
return status errors carrying code and body. -/
theorem c5_strict_200_witness :
    get { status := 200, body := "rss", elapsedMs := 10 } = .ok "rss" ∧
    (get { status := 503, body := "down", elapsedMs := 10 }
        = .error (.httpError 503 "down") ∨
      get { status := 503, body := "down", elapsedMs := 10 }
        = .error (.unexpectedStatus 503 "down")) :=
  ⟨(c5_strict_200 { status := 200, body := "rss", elapsedMs := 10 } (by norm_num)).1.mpr rfl,
   (c5_strict_200 { status := 503, body := "down", elapsedMs := 10 } (by norm_num)).2.2
     (by norm_num)⟩

/-- Inversion of a successful normalization: the field equations the
try block must have satisfied to produce this lot and row. -/
lemma entryOutcome_ok_inv (e : RawEntry) (now : Nat) (lot : ParkingLot)
    (row : ParkingEntryRow) (h : entryOutcome e now = .ok lot row) :
    numField e.vdlxml_actuel = .ok row.free ∧
    numField e.vdlxml_total = .ok row.total ∧
    fullField e.vdlxml_complet = .ok row.full ∧
    e.title = some lot.name ∧
    (lot.name = "Beggen" → lot.id = 999999) ∧
    (lot.name ≠ "Beggen" → ∃ s, e.id = some s ∧ pyInt s = some lot.id) ∧
    e.vdlxml_divers = some lot.info ∧
    e.vdlxml_paiement = some lot.price ∧
    (∃ laS, e.vdlxml_localisationlatitude = some laS ∧
        coordVal laS = .ok (some lot.lat)) ∧
    (∃ loS, e.vdlxml_localisationlongitude = some loS ∧
        coordVal loS = .ok (some lot.lon)) ∧
    row.park_id = lot.id ∧
    row.timestamp = entryTimestamp now := by
  obtain ⟨t, idf, af, tf, cf, df, pf, laf, lof⟩ := e
  unfold entryOutcome at h
  dsimp only at h ⊢
  rcases h1 : numField af with u1 | fr <;> rw [h1] at h <;> (try dsimp only at h)
  · simp at h
  rcases h2 : numField tf with u2 | tot <;> rw [h2] at h <;> (try dsimp only at h)
  · simp at h
  rcases h3 : fullField cf with u3 | fl <;> rw [h3] at h <;> (try dsimp only at h)
  · simp at h
  rcases t with _ | nm <;> (try dsimp only at h)
  · simp at h
  by_cases hB : nm = "Beggen"
  · rw [if_pos hB] at h
    dsimp only at h
    rcases df with _ | info <;> (try dsimp only at h)
    · simp at h
    rcases pf with _ | price <;> (try dsimp only at h)
    · simp at h
    rcases laf with _ | laS <;> (try dsimp only at h)
    · simp at h
    rcases h9 : coordVal laS with u9 | ola <;> rw [h9] at h <;> (try dsimp only at h)
    · simp at h
    rcases lof with _ | loS <;> (try dsimp only at h)
    · simp at h
    rcases h11 : coordVal loS with u11 | olo <;> rw [h11] at h <;> (try dsimp only at h)
    · simp at h
    rcases ola with _ | la <;> (try dsimp only at h)
    · simp at h
    rcases olo with _ | lo <;> (try dsimp only at h)
    · simp at h
    simp only [Outcome.ok.injEq] at h
    obtain ⟨hl, hr⟩ := h
    subst hl; subst hr
    exact ⟨rfl, rfl, rfl, rfl, fun _ => rfl, fun hn => absurd hB hn,
      rfl, rfl, ⟨laS, rfl, h9⟩, ⟨loS, rfl, h11⟩, rfl, rfl⟩
  · rw [if_neg hB] at h
    rcases idf with _ | idS <;> (try dsimp only at h)
    · simp at h
    rcases h5b : pyInt idS with _ | idN <;> rw [h5b] at h <;> (try dsimp only at h)
    · simp at h
    rcases df with _ | info <;> (try dsimp only at h)
    · simp at h
    rcases pf with _ | price <;> (try dsimp only at h)
    · simp at h
    rcases laf with _ | laS <;> (try dsimp only at h)
    · simp at h
    rcases h9 : coordVal laS with u9 | ola <;> rw [h9] at h <;> (try dsimp only at h)
    · simp at h
    rcases lof with _ | loS <;> (try dsimp only at h)
    · simp at h
    rcases h11 : coordVal loS with u11 | olo <;> rw [h11] at h <;> (try dsimp only at h)
    · simp at h
    rcases ola with _ | la <;> (try dsimp only at h)
    · simp at h
    rcases olo with _ | lo <;> (try dsimp only at h)
    · simp at h
    simp only [Outcome.ok.injEq] at h
    obtain ⟨hl, hr⟩ := h
    subst hl; subst hr
    exact ⟨rfl, rfl, rfl, rfl, fun hb => absurd hb hB,
      fun _ => ⟨idS, rfl, h5b⟩, rfl, rfl, ⟨laS, rfl, h9⟩, ⟨loS, rfl, h11⟩, rfl, rfl⟩

/-- A well-formed feed entry (field values as the vdl.lu feed supplies
them) used for concrete checks. -/
def sampleEntry : RawEntry :=
  { title := some "Glacis", id := some "5", vdlxml_actuel := some "10",
    vdlxml_total := some "100", vdlxml_complet := some "0",
    vdlxml_divers := some "", vdlxml_paiement := some "payant",
    vdlxml_localisationlatitude := some "49.61",
    vdlxml_localisationlongitude := some "6.12" }

/-- The lot sampleEntry normalizes to. -/
def sampleLot : ParkingLot :=
  { id := 5, name := "Glacis", lat := 4961/100, lon := 153/25,
    price := "payant", info := "" }

/-- The reading sampleEntry normalizes to at instant 125300000
(00:02:05.300000 past the epoch). -/
def sampleRow : ParkingEntryRow :=
  { park_id := 5, free := some 10, total := some 100, full := some false,
    timestamp := 120300000 }

/-- A Beggen feed entry whose own id field is absent. -/
def beggenEntry : RawEntry := { sampleEntry with title := some "Beggen", id := none }

/-- The lot beggenEntry normalizes to. -/
def beggenLot : ParkingLot := { sampleLot with id := 999999, name := "Beggen" }

/-- The reading beggenEntry normalizes to at instant 0. -/
def beggenRow : ParkingEntryRow := { sampleRow with park_id := 999999, timestamp := 0 }

/-- C7: whenever the try block produces a lot and reading, an entry
titled Beggen gets the fixed sentinel id 999999 whatever its id field
holds, and any other entry gets the integer parse of its id field, the
reading pointing at the same id. -/
theorem c7_beggen_sentinel (e : RawEntry) (now : Nat) (lot : ParkingLot)
    (row : ParkingEntryRow) (h : entryOutcome e now = .ok lot row) :
    (e.title = some "Beggen" → lot.id = 999999 ∧ row.park_id = 999999) ∧
    (∀ nm, e.title = some nm → nm ≠ "Beggen" →
      ∃ s, e.id = some s ∧ pyInt s = some lot.id ∧ row.park_id = lot.id) := by
  obtain ⟨-, -, -, h4, hB, hNB, -, -, -, -, hpid, -⟩ :=
    entryOutcome_ok_inv e now lot row h
  constructor
  · intro ht
    rw [ht] at h4
    have hname : lot.name = "Beggen" := by
      injection h4 with h4'; exact h4'.symm
    have := hB hname
    exact ⟨this, by rw [hpid, this]⟩
  · intro nm ht hne
    rw [ht] at h4
    have hname : lot.name = nm := by
      injection h4 with h4'; exact h4'.symm
    obtain ⟨s, hs, hv⟩ := hNB (by rw [hname]; exact hne)
    exact ⟨s, hs, hv, hpid⟩

/-- Witness for c7_beggen_sentinel: the Beggen entry (id field absent)
yields lot id 999999; the Glacis entry yields the parse of its id
field "5". -/
theorem c7_beggen_sentinel_witness :
    beggenLot.id = 999999 ∧
    (∃ s, sampleEntry.id = some s ∧ pyInt s = some sampleLot.id ∧
      sampleRow.park_id = sampleLot.id) :=
  have hb : entryOutcome beggenEntry 0 = .ok beggenLot beggenRow := by
    with_unfolding_all rfl
  have hg : entryOutcome sampleEntry 125300000 = .ok sampleLot sampleRow := by
    with_unfolding_all rfl
  ⟨((c7_beggen_sentinel beggenEntry 0 beggenLot beggenRow hb).1 rfl).1,
   (c7_beggen_sentinel sampleEntry 125300000 sampleLot sampleRow hg).2 "Glacis" rfl
     (by decide)⟩

/-- C8: in any produced reading, an empty-string free / total / full
feed field gives null, a nonempty one gives its integer parse, and the
full flag is false exactly when the numeric flag parses to 0. -/
theorem c8_empty_numeric_null (e : RawEntry) (now : Nat) (lot : ParkingLot)
    (row : ParkingEntryRow) (h : entryOutcome e now = .ok lot row) :
    (e.vdlxml_actuel = some "" → row.free = none) ∧
    (∀ s n, e.vdlxml_actuel = some s → s ≠ "" → pyInt s = some n → row.free = some n) ∧
    (e.vdlxml_total = some "" → row.total = none) ∧
    (∀ s n, e.vdlxml_total = some s → s ≠ "" → pyInt s = some n → row.total = some n) ∧
    (e.vdlxml_complet = some "" → row.full = none) ∧
    (∀ s n, e.vdlxml_complet = some s → s ≠ "" → pyInt s = some n →
      row.full = some (decide (n ≠ 0))) := by
  obtain ⟨h1, h2, h3, -⟩ := entryOutcome_ok_inv e now lot row h
  refine ⟨?_, ?_, ?_, ?_, ?_, ?_⟩
  · intro hf; rw [hf] at h1
    have h0 : numField (some "") = Except.ok (none : Option Int) := rfl
    rw [h0] at h1
    exact (Except.ok.inj h1).symm
  · intro s n hs hne hp; rw [hs] at h1
    simp only [numField] at h1
    rw [if_neg hne, hp] at h1
    exact (Except.ok.inj h1).symm
  · intro hf; rw [hf] at h2
    have h0 : numField (some "") = Except.ok (none : Option Int) := rfl
    rw [h0] at h2
    exact (Except.ok.inj h2).symm
  · intro s n hs hne hp; rw [hs] at h2
    simp only [numField] at h2
    rw [if_neg hne, hp] at h2
    exact (Except.ok.inj h2).symm
  · intro hf; rw [hf] at h3
    have h0 : fullField (some "") = Except.ok (none : Option Bool) := rfl
    rw [h0] at h3
    exact (Except.ok.inj h3).symm
  · intro s n hs hne hp; rw [hs] at h3
    simp only [fullField, numField] at h3
    rw [if_neg hne, hp] at h3
    exact (Except.ok.inj h3).symm

/-- Witness for c8_empty_numeric_null: an entry with empty free field,
total "100" and full flag "0" yields a reading with free null, total
100, full false. -/
theorem c8_empty_numeric_null_witness :
    (let r : ParkingEntryRow :=
      { park_id := 5, free := none, total := some 100, full := some false,
        timestamp := 0 }
     r.free = none ∧ r.total = some 100 ∧ r.full = some (decide ((0 : Int) ≠ 0))) :=
  have h : entryOutcome { sampleEntry with vdlxml_actuel := some "" } 0 =
      .ok sampleLot
        { park_id := 5, free := none, total := some 100, full := some false,
          timestamp := 0 } := by with_unfolding_all rfl
  have hc := c8_empty_numeric_null _ _ _ _ h
  ⟨hc.1 rfl, hc.2.2.2.1 "100" 100 rfl (by decide) (by with_unfolding_all rfl),
   hc.2.2.2.2.2 "0" 0 rfl (by decide) (by with_unfolding_all rfl)⟩

/-- C9 counterexample: at the concrete instant 125300000
(00:02:05.300000) the produced reading's timestamp is 120300000
(00:02:00.300000), while the wall-clock minute of the poll demanded by
the spec is 120000000 (00:02:00.000000). -/
theorem c9_counterexample :
    entryOutcome sampleEntry 125300000 = .ok sampleLot sampleRow ∧
    sampleRow.timestamp = 120300000 ∧
    readingTimestampSpec 125300000 = 120000000 ∧
    sampleRow.timestamp ≠ readingTimestampSpec 125300000 := by
  exact ⟨by with_unfolding_all rfl, rfl, by decide, by decide⟩

/-- C9 amended: every produced reading's timestamp is the row-creation
instant with its second component replaced by zero; the microsecond
component is preserved, so the timestamp lies inside the creation
minute but equals the exact minute boundary only when the creation
instant's microsecond part is zero. -/
theorem c9_timestamp_second_replaced (e : RawEntry) (now : Nat) (lot : ParkingLot)
    (row : ParkingEntryRow) (h : entryOutcome e now = .ok lot row) :
    row.timestamp = entryTimestamp now ∧
    secondOf row.timestamp = 0 ∧
    microsecondOf row.timestamp = microsecondOf now ∧
    truncToMinute row.timestamp = truncToMinute now := by
  obtain ⟨-, -, -, -, -, -, -, -, -, -, -, hts⟩ := entryOutcome_ok_inv e now lot row h
  refine ⟨hts, ?_, ?_, ?_⟩ <;>
    · rw [hts]
      simp only [entryTimestamp, secondOf, microsecondOf, truncToMinute,
        MICROS_PER_SEC, MICROS_PER_MIN]
      omega

/-- Witness for c9_timestamp_second_replaced at the sample entry and
instant 125300000. -/
theorem c9_timestamp_second_replaced_witness :
    secondOf sampleRow.timestamp = 0 ∧
    microsecondOf sampleRow.timestamp = microsecondOf 125300000 :=
  have h : entryOutcome sampleEntry 125300000 = .ok sampleLot sampleRow := by
    with_unfolding_all rfl
  have hc := c9_timestamp_second_replaced sampleEntry 125300000 sampleLot sampleRow h
  ⟨hc.2.1, hc.2.2.1⟩

/-- C10: for an entry titled Beggen the id field is never read: the
whole normalization result is unchanged under any replacement of the id
field, so in particular a missing or non-numeric id still normalizes. -/
theorem c10_beggen_id_unread (e : RawEntry) (now : Nat)
    (h : e.title = some "Beggen") :
    (∀ v, entryOutcome { e with id := v } now = entryOutcome e now) ∧
    (∀ lot row, entryOutcome e now = .ok lot row →
      ∀ v, entryOutcome { e with id := v } now = .ok lot row) := by
  have key : ∀ v, entryOutcome { e with id := v } now = entryOutcome e now := by
    obtain ⟨t, idf, af, tf, cf, df, pf, laf, lof⟩ := e
    dsimp only at h
    subst h
    intro v
    unfold entryOutcome
    dsimp only
    rcases numField af with u1 | fr
    · rfl
    dsimp only
    rcases numField tf with u2 | tot
    · rfl
    dsimp only
    rcases fullField cf with u3 | fl
    · rfl
    dsimp only
    rw [if_pos rfl, if_pos rfl]
  exact ⟨key, fun lot row hok v => (key v).trans hok⟩

/-- Witness for c10_beggen_id_unread: the Beggen entry with a
non-numeric id field "abc" normalizes exactly as with no id field at
all, to the sentinel lot. -/
theorem c10_beggen_id_unread_witness :
    entryOutcome { beggenEntry with id := some "abc" } 0 = entryOutcome beggenEntry 0 ∧
    entryOutcome { beggenEntry with id := some "abc" } 0 = .ok beggenLot beggenRow :=
  have hc := c10_beggen_id_unread beggenEntry 0 rfl
  ⟨hc.1 (some "abc"), hc.2 beggenLot beggenRow (by with_unfolding_all rfl) (some "abc")⟩

/-- C6: a feed entry whose other fields normalize but whose latitude or
longitude field is the empty string (which parses to null) is filtered:
it yields no lot and no reading, only the not-yet-usable warning is
logged, nothing is raised across the batch boundary, and the loop state
is otherwise unchanged so the remaining entries are processed normally. -/
theorem c6_coords_mandatory (e : RawEntry) (now : Nat) (nm laS loS : String)
    (fr tot : Option Int) (fl : Option Bool) (inf pr : String)
    (ola olo : Option Rat)
    (h1 : numField e.vdlxml_actuel = .ok fr)
    (h2 : numField e.vdlxml_total = .ok tot)
    (h3 : fullField e.vdlxml_complet = .ok fl)
    (h4 : e.title = some nm)
    (h5 : nm = "Beggen" ∨ ∃ s k, e.id = some s ∧ pyInt s = some k)
    (h6 : e.vdlxml_divers = some inf)
    (h7 : e.vdlxml_paiement = some pr)
    (h8 : e.vdlxml_localisationlatitude = some laS)
    (h9 : e.vdlxml_localisationlongitude = some loS)
    (hca : coordVal laS = .ok ola)
    (hco : coordVal loS = .ok olo)
    (hempty : laS = "" ∨ loS = "") :
    entryOutcome e now = .noCoords nm ∧
    ∀ st, processEntry now st e =
      { st with boundName := some nm, logs := st.logs ++ [.warnNoCoords nm] } := by
  have hola : laS = "" → ola = none := by
    intro hE
    rw [hE] at hca
    have h0 : coordVal "" = Except.ok (none : Option Rat) := rfl
    rw [h0] at hca
    exact (Except.ok.inj hca).symm
  have holo : loS = "" → olo = none := by
    intro hE
    rw [hE] at hco
    have h0 : coordVal "" = Except.ok (none : Option Rat) := rfl
    rw [h0] at hco
    exact (Except.ok.inj hco).symm
  have key : entryOutcome e now = .noCoords nm := by
    obtain ⟨t, idf, af, tf, cf, df, pf, laf, lof⟩ := e
    dsimp only at h1 h2 h3 h4 h5 h6 h7 h8 h9
    subst h4; subst h6; subst h7; subst h8; subst h9
    unfold entryOutcome
    dsimp only
    rw [h1]; dsimp only
    rw [h2]; dsimp only
    rw [h3]; dsimp only
    by_cases hB : nm = "Beggen"
    · rw [if_pos hB]
      dsimp only
      rw [hca]; dsimp only
      rw [hco]; dsimp only
      rcases hempty with hE | hE
      · rw [hola hE]
      · rw [holo hE]
        rcases ola with _ | qa <;> rfl
    · rcases h5 with hB' | ⟨s, k, hs, hk⟩
      · exact absurd hB' hB
      rw [if_neg hB]
      subst hs
      dsimp only
      rw [hk]; dsimp only
      rw [hca]; dsimp only
      rw [hco]; dsimp only
      rcases hempty with hE | hE
      · rw [hola hE]
      · rw [holo hE]
        rcases ola with _ | qa <;> rfl
  refine ⟨key, fun st => ?_⟩
  simp [processEntry, key]

/-- The Luxembourg Sud B style entry: well-formed but with an empty
latitude field. -/
def noCoordsEntry : RawEntry :=
  { sampleEntry with title := some "Luxembourg Sud B",
                     vdlxml_localisationlatitude := some "" }

/-- Witness for c6_coords_mandatory: the empty-latitude entry is
filtered with only the warning logged and no session write. -/
theorem c6_coords_mandatory_witness :
    entryOutcome noCoordsEntry 0 = .noCoords "Luxembourg Sud B" ∧
    processEntry 0 { boundName := none, lots := [], rows := [], logs := [] }
        noCoordsEntry =
      { boundName := some "Luxembourg Sud B", lots := [], rows := [],
        logs := [.warnNoCoords "Luxembourg Sud B"] } :=
  have hc := c6_coords_mandatory noCoordsEntry 0 "Luxembourg Sud B" "" "6.12"
    (some 10) (some 100) (some false) "" "payant" none (some (153/25))
    (by with_unfolding_all rfl) (by with_unfolding_all rfl)
    (by with_unfolding_all rfl) rfl
    (Or.inr ⟨"5", 5, rfl, by with_unfolding_all rfl⟩)
    rfl rfl rfl rfl
    (by with_unfolding_all rfl) (by with_unfolding_all rfl)
    (Or.inl rfl)
  ⟨hc.1, (hc.2 _).trans rfl⟩

/-- The lot one decoded entry contributes to the session, when any. -/
def lotOf (now : Nat) (e : RawEntry) : Option ParkingLot :=
  match entryOutcome e now with
  | .ok lot _ => some lot
  | _ => none

/-- The reading one decoded entry contributes to the session, when any. -/
def rowOf (now : Nat) (e : RawEntry) : Option ParkingEntryRow :=
  match entryOutcome e now with
  | .ok _ row => some row
  | _ => none

/-- Whether the try block raises an exception for this entry. -/
def entryFails (now : Nat) (e : RawEntry) : Bool :=
  match entryOutcome e now with
  | .fail _ => true
  | _ => false

/-- Whether a log line is the per-entry exception line of the except
handler. -/
def LogLine.isErr : LogLine → Bool
  | .errNamed _ => true
  | .errUnknown => true
  | _ => false

/-- The except handler's log line is counted as an error line whether or
not a lot name is bound. -/
lemma isErr_errLogFor (o : Option String) : (errLogFor o).isErr = true := by
  cases o <;> rfl

/-- The per-lot info line is not an error line. -/
lemma isErr_lotInfo (n : String) (i : Int) : (LogLine.lotInfo n i).isErr = false := rfl

/-- The missing-coordinates warning is not an error line. -/
lemma isErr_warnNoCoords (n : String) : (LogLine.warnNoCoords n).isErr = false := rfl

/-- The for loop over a batch accumulates exactly the per-entry lots and
rows in feed order and one exception log line per failing entry,
whatever session state and park_name binding it starts from. -/
lemma processEntry_foldl_spec (now : Nat) (es : List RawEntry) :
    ∀ st : CycleState,
      (es.foldl (processEntry now) st).lots = st.lots ++ es.filterMap (lotOf now) ∧
      (es.foldl (processEntry now) st).rows = st.rows ++ es.filterMap (rowOf now) ∧
      (es.foldl (processEntry now) st).logs.countP (fun l => LogLine.isErr l)
        = st.logs.countP (fun l => LogLine.isErr l) + es.countP (entryFails now) := by
  induction es with
  | nil => intro st; simp
  | cons e es ih =>
      intro st
      obtain ⟨ihl, ihr, ihc⟩ := ih (processEntry now st e)
      rcases h : entryOutcome e now with ⟨lot, row⟩ | n | r <;>
        simp only [processEntry, h] at ihl ihr ihc <;>
        refine ⟨?_, ?_, ?_⟩ <;>
        simp [processEntry, ihl, ihr, ihc, lotOf, rowOf, entryFails,
          isErr_errLogFor, isErr_lotInfo, isErr_warnNoCoords, h,
          List.countP_cons, List.countP_append] <;>
        (try omega)

/-- C1: in every poll cycle, the batch loop is fault isolated: the
session receives exactly the lots and readings of the successfully
normalized entries in feed order; each failing entry contributes no
write and exactly one exception log line, naming the currently bound
lot name when one is bound and the generic unknown-parking line
otherwise; and a successful commit persists every valid entry's reading
of that same cycle. -/
theorem c1_fault_isolation (es : List RawEntry) (name0 : Option String)
    (now : Nat) (db : DB) :
    (processEntries es name0 now).lots = es.filterMap (lotOf now) ∧
    (processEntries es name0 now).rows = es.filterMap (rowOf now) ∧
    (processEntries es name0 now).logs.countP (fun l => LogLine.isErr l)
      = es.countP (entryFails now) ∧
    (∀ st e r, entryOutcome e now = .fail r →
      (processEntry now st e).lots = st.lots ∧
      (processEntry now st e).rows = st.rows ∧
      (processEntry now st e).logs = st.logs ++ [errLogFor (r <|> st.boundName)]) ∧
    (commitSession db (processEntries es name0 now) true).rows
      = db.rows ++ es.filterMap (rowOf now) := by
  obtain ⟨hl, hr, hc⟩ :=
    processEntry_foldl_spec now es
      { boundName := name0, lots := [], rows := [], logs := [] }
  refine ⟨?_, ?_, ?_, ?_, ?_⟩
  · simpa [processEntries] using hl
  · simpa [processEntries] using hr
  · simpa [processEntries] using hc
  · intro st e r h
    refine ⟨?_, ?_, ?_⟩ <;> simp [processEntry, h]
  · simp only [commitSession, if_pos rfl]
    simpa [processEntries] using hr

/-- A batch with one malformed entry (non-numeric id) between two valid
ones. -/
def sampleBatch : List RawEntry :=
  [sampleEntry,
   { sampleEntry with title := some "Kirchberg", id := some "abc" },
   beggenEntry]

/-- Witness for c1_fault_isolation: the malformed middle entry of
sampleBatch is skipped with one error line while both valid entries
still reach the session and are committed. -/
theorem c1_fault_isolation_witness :
    (commitSession { lots := [], rows := [] } (processEntries sampleBatch none 0)
        true).rows =
      [{ park_id := 5, free := some 10, total := some 100, full := some false,
         timestamp := 0 }, beggenRow] ∧
    (processEntries sampleBatch none 0).logs.countP (fun l => LogLine.isErr l) = 1 :=
  have hc := c1_fault_isolation sampleBatch none 0 { lots := [], rows := [] }
  ⟨hc.2.2.2.2.trans (by with_unfolding_all rfl),
   hc.2.2.1.trans (by with_unfolding_all rfl)⟩

/-- C3: per-cycle atomicity of persistence: a cycle whose commit fails
leaves the database exactly as before (no partial writes) and logs the
error; a cycle whose commit succeeds writes the whole batch, upserting
every produced lot and appending every produced reading; and the loop
state handed to the next cycle after a failed commit is the same as if
the failed cycle had never touched the database. -/
theorem c3_cycle_atomicity (db : DB) (name0 : Option String)
    (es : List RawEntry) (now : Nat) :
    (runCycle db name0 es now false).1 = db ∧
    LogLine.dbError ∈ (runCycle db name0 es now false).2.logs ∧
    (runCycle db name0 es now true).1.rows = db.rows ++ es.filterMap (rowOf now) ∧
    (runCycle db name0 es now true).1.lots
      = (es.filterMap (lotOf now)).foldl applyLot db.lots ∧
    (∀ name1 es2 now2 ok2,
      runCycle (runCycle db name0 es now false).1 name1 es2 now2 ok2
        = runCycle db name1 es2 now2 ok2) := by
  obtain ⟨hl, hr, -⟩ :=
    processEntry_foldl_spec now es
      { boundName := name0, lots := [], rows := [], logs := [] }
  refine ⟨rfl, ?_, ?_, ?_, fun name1 es2 now2 ok2 => rfl⟩
  · simp [runCycle]
  · simp only [runCycle, commitSession, if_pos rfl]
    simpa [processEntries] using hr
  · have hlots : (processEntries es name0 now).lots = es.filterMap (lotOf now) := by
      simpa [processEntries] using hl
    simp [runCycle, commitSession, hlots]

end LuxParking
